import Mathlib

/-!
Verification of the deepharbor change-propagation pipeline.

This file gives a shallow embedding of the parts of the repository that the
verified properties talk about:

* the Change Dispatcher (`code/DHDispatcher/main.py`): per-row processing,
  batch processing, the paginated fetch loop used by the resume pass and the
  notification handler, and the event (commit) trace those produce;
* the access effector (`code/services/DHAccess/main.py`): the add/remove
  decision per tag of `change_access`;
* the DH2RFID worker (`code/workers/DH2RFID/main.py`): the polling producer
  side of the file bus and the `add_entry` endpoint;
* the DHRFIDReader worker (`code/workers/DHRFIDReader/main.py`): the consumer
  side of the file bus (`process_queue`, `handle_message`) and the
  retry-until-success device loops of `set_datetime` / `get_datetime`.

Machine integers do not overflow in the modelled code paths, so database ids
and HTTP status codes are embedded as `Nat`; JSON string fields as `String`;
fallible steps as `Option` or explicit outcome types.  Exceptions that the
Python code lets propagate are modelled as explicit outcome constructors.
-/

namespace Dispatcher

/-- A row of the member_changes table.  The dispatcher reads `data.change`
(the change-type key), `data.member_id`, and `data[change]` (the type-specific
body); we embed exactly those three components of the JSON payload. -/
structure ChangeRow where
  id : Nat
  change : Option String
  memberId : Option Nat
  changeData : Option String
  processed : Bool
  deriving Repr, DecidableEq

/-- A row of the service_endpoints routing table. -/
structure Route where
  name : String
  endpoint : String
  deriving Repr, DecidableEq

/-- A row of the member_changes_processing_log table, as inserted by
log_processing_error. -/
structure Attempt where
  changeId : Nat
  serviceName : String
  endpoint : String
  responseCode : Nat
  responseMessage : String
  deriving Repr, DecidableEq

/-- The JSON body POSTed to an effector by process_row. -/
structure Payload where
  memberId : Option Nat
  changeType : Option String
  changeData : Option String
  deriving Repr, DecidableEq

/-- Result of requests.post: either an HTTP response (status code and body)
or a transport-level exception. -/
inductive HttpResult where
  | resp (code : Nat) (body : String)
  | transportError
  deriving Repr, DecidableEq

/-- The environment the dispatcher runs against: the routing table and the
behaviour of the effector services (response as a function of endpoint and
posted payload). -/
structure World where
  routes : List Route
  http : String → Payload → HttpResult

/-- Database state visible to the dispatcher: the member_changes table and
the member_changes_processing_log table.  The change log is kept in table
order (ascending autoincrement id). -/
structure DbState where
  changes : List ChangeRow
  attempts : List Attempt
  deriving Repr, DecidableEq

/-- Durable database effects, at commit granularity.  log_processing_error
commits on its own connection as soon as it is called; mark_as_processed is
committed by the conn.commit() in process_batch; a failed row is rolled back.
postSent records the HTTP POST to an effector (tagged with the row id it was
issued for). -/
inductive DbEvent where
  | postSent (rowId : Nat) (endpoint : String) (payload : Payload)
  | attemptCommit (a : Attempt)
  | markCommit (rowId : Nat)
  | rollback
  deriving Repr, DecidableEq

/-- get_service_for_change: look up the service_endpoints row whose name
equals the change-type key; SQL equality with NULL matches nothing. -/
def get_service_for_change (routes : List Route) (changeType : Option String) :
    Option Route :=
  match changeType with
  | none => none
  | some ct => routes.find? (fun rt => rt.name == ct)

/-- Outcome of process_row: it returns True, returns False, or lets an
exception (from requests.post) propagate to process_batch. -/
inductive RowOutcome where
  | success
  | failure
  | raised
  deriving Repr, DecidableEq

/-- The payload process_row builds: member_id, change_type, and
data[change_type]. -/
def payloadOf (row : ChangeRow) : Payload :=
  { memberId := row.memberId, changeType := row.change,
    changeData := row.changeData }

/-- process_row, as the list of durable events it performs plus its outcome.
No route: only an application-log line, return False.  Transport error: the
exception propagates (no attempt row).  Non-200 response: log_processing_error
with the actual code and body, return False.  200: log_processing_error with
code 200 and message "Successfully processed.", return True. -/
def process_row (w : World) (row : ChangeRow) : List DbEvent × RowOutcome :=
  match get_service_for_change w.routes row.change with
  | none => ([], .failure)
  | some rt =>
    match w.http rt.endpoint (payloadOf row) with
    | .transportError => ([.postSent row.id rt.endpoint (payloadOf row)], .raised)
    | .resp code body =>
      if code ≠ 200 then
        ([.postSent row.id rt.endpoint (payloadOf row),
          .attemptCommit ⟨row.id, rt.name, rt.endpoint, code, body⟩], .failure)
      else
        ([.postSent row.id rt.endpoint (payloadOf row),
          .attemptCommit ⟨row.id, rt.name, rt.endpoint, 200,
            "Successfully processed."⟩], .success)

/-- mark_as_processed: UPDATE member_changes SET processed = TRUE WHERE id = %s. -/
def mark_as_processed (changes : List ChangeRow) (id_ : Nat) : List ChangeRow :=
  changes.map (fun r => if r.id = id_ then { r with processed := true } else r)

/-- Apply one durable event to the database state. -/
def applyEvent (s : DbState) : DbEvent → DbState
  | .postSent _ _ _ => s
  | .attemptCommit a => { s with attempts := s.attempts ++ [a] }
  | .markCommit id_ => { s with changes := mark_as_processed s.changes id_ }
  | .rollback => s

/-- Apply a list of durable events in order. -/
def applyEvents (s : DbState) (evs : List DbEvent) : DbState :=
  evs.foldl applyEvent s

/-- The events produced by one iteration of the process_batch loop for one
row: the events of process_row, then either the processed-mark commit (when
process_row returned True) or a rollback (False or exception). -/
def rowStepEvents (w : World) (row : ChangeRow) : List DbEvent :=
  (process_row w row).1 ++
    (if (process_row w row).2 = .success then [.markCommit row.id]
     else [.rollback])

/-- process_batch: process the fetched rows sequentially in list order,
applying each row's durable events before moving to the next row; returns the
final state and the durable events in order. -/
def process_batch (w : World) (s : DbState) : List ChangeRow → DbState × List DbEvent
  | [] => (s, [])
  | row :: rest =>
    ((process_batch w (applyEvents s (rowStepEvents w row)) rest).1,
     rowStepEvents w row ++
       (process_batch w (applyEvents s (rowStepEvents w row)) rest).2)

/-- The WHERE clause of the fetch query: processed = FALSE AND id greater
than the pagination cursor. -/
def unprocAfter (afterId : Nat) (r : ChangeRow) : Bool :=
  !r.processed && decide (afterId < r.id)

/-- fetch_unprocessed_batch: SELECT from member_changes WHERE processed =
FALSE AND id greater than the cursor, ORDER BY id, LIMIT batch_size.  The SQL
ORDER BY is embedded as a sort of the matching rows by id. -/
def fetch_unprocessed_batch (changes : List ChangeRow) (batchSize afterId : Nat) :
    List ChangeRow :=
  ((changes.filter (unprocAfter afterId)).insertionSort
      (fun a b => a.id ≤ b.id)).take batchSize

/-- count_unprocessed: SELECT COUNT of rows WHERE processed = FALSE. -/
def count_unprocessed (changes : List ChangeRow) : Nat :=
  (changes.filter (fun r => !r.processed)).length

instance : Inhabited ChangeRow := ⟨⟨0, none, none, none, false⟩⟩

/-- The paginated fetch-and-process loop shared by resume_unprocessed and
process_pending_notifications: fetch a batch after the cursor, stop if it is
empty, process it, advance the cursor to the last fetched id, stop early if
the batch was short.  The while-True loop is embedded with fuel (one unit per
batch); every run of the source loop terminates because the cursor strictly
increases through a finite table, and the theorems are stated for sufficient
fuel.  Returns the final state, the rows processed in order, and the durable
events in order. -/
def fetchLoop (w : World) (b : Nat) :
    Nat → DbState → Nat → DbState × List ChangeRow × List DbEvent
  | 0, s, _ => (s, [], [])
  | fuel + 1, s, lastId =>
    let rows := fetch_unprocessed_batch s.changes b lastId
    if rows.isEmpty then (s, [], [])
    else
      let s' := (process_batch w s rows).1
      let evs := (process_batch w s rows).2
      if rows.length < b then (s', rows, evs)
      else
        ((fetchLoop w b fuel s' (rows.getLastD default).id).1,
         rows ++ (fetchLoop w b fuel s' (rows.getLastD default).id).2.1,
         evs ++ (fetchLoop w b fuel s' (rows.getLastD default).id).2.2)

/-- resume_unprocessed: early-return when count_unprocessed is zero, else run
the fetch loop from cursor 0. -/
def resume_unprocessed (w : World) (b : Nat) (s : DbState) (fuel : Nat) :
    DbState × List ChangeRow × List DbEvent :=
  if count_unprocessed s.changes = 0 then (s, [], [])
  else fetchLoop w b fuel s 0

/-- process_pending_notifications: drain the notification queue (the payloads
are not acted upon) and run the same fetch loop from cursor 0. -/
def process_pending_notifications (w : World) (b : Nat) (s : DbState) (fuel : Nat) :
    DbState × List ChangeRow × List DbEvent :=
  fetchLoop w b fuel s 0

/-- The ids of the rows actually delivered to effectors (the HTTP POSTs), in
the order the events happened. -/
def deliveredIds (evs : List DbEvent) : List Nat :=
  evs.filterMap (fun e =>
    match e with
    | .postSent rowId _ _ => some rowId
    | _ => none)

/-- Observable startup behaviour of main: the resume pass runs first and the
LISTEN statement is issued only afterwards. -/
inductive StartupEvent where
  | dispatched (rowId : Nat)
  | listen
  deriving Repr, DecidableEq

/-- main, up to the point it starts blocking on notifications: run
resume_unprocessed, then execute LISTEN on the watch channel. -/
def mainStartup (w : World) (b : Nat) (s : DbState) (fuel : Nat) :
    List StartupEvent :=
  (deliveredIds (resume_unprocessed w b s fuel).2.2).map .dispatched ++ [.listen]

/-- A dispatcher process that wakes n times after startup: the resume pass
followed by n runs of process_pending_notifications, with the delivered-id
traces concatenated in order. -/
def dispatcherRun (w : World) (b : Nat) (s : DbState) (fuel : Nat) :
    Nat → DbState × List Nat
  | 0 =>
    ((resume_unprocessed w b s fuel).1,
     deliveredIds (resume_unprocessed w b s fuel).2.2)
  | n + 1 =>
    let prev := dispatcherRun w b s fuel n
    ((process_pending_notifications w b prev.1 fuel).1,
     prev.2 ++ deliveredIds (process_pending_notifications w b prev.1 fuel).2.2)

/-- Invariant of claim C1: every change row marked processed has at least one
attempt-log row with response code 200. -/
def SuccessLogged (s : DbState) : Prop :=
  ∀ r ∈ s.changes, r.processed = true →
    ∃ a ∈ s.attempts, a.changeId = r.id ∧ a.responseCode = 200

instance (s : DbState) : Decidable (SuccessLogged s) := by
  unfold SuccessLogged; infer_instance

/-- Atomicity of the attempt insert and the processed mark for one row, as
claim C3 states it: at every commit-granularity prefix of the row's durable
events (every possible crash point), a 200 attempt row for the id is durable
exactly when the processed mark for the id is durable. -/
def AttemptMarkAtomic (s : DbState) (evs : List DbEvent) (id_ : Nat) : Prop :=
  ∀ k ≤ evs.length,
    ((∃ a ∈ (applyEvents s (evs.take k)).attempts,
        a.changeId = id_ ∧ a.responseCode = 200) ↔
     (∃ r ∈ (applyEvents s (evs.take k)).changes,
        r.id = id_ ∧ r.processed = true))

instance (s : DbState) (evs : List DbEvent) (id_ : Nat) :
    Decidable (AttemptMarkAtomic s evs id_) := by
  unfold AttemptMarkAtomic; infer_instance

end Dispatcher

namespace Access

/-- One row returned by get_all_tags_for_member: tag, wiegand_tag_num
(converted_tag), and the tag's own status. -/
structure TagEntry where
  tag : String
  convertedTag : String
  status : String
  deriving Repr, DecidableEq

/-- The member record the effector reads from the member store: identity
(name fields), status.membership_status, and the tag list. -/
structure Member where
  firstName : String
  lastName : String
  membershipStatus : String
  tags : List TagEntry
  deriving Repr, DecidableEq

/-- A call made to the DH2RFID worker: POST to the add_tags endpoint or the
remove_tags endpoint, with the tag entry placed in the request body. -/
inductive AccessCall where
  | add (t : TagEntry)
  | remove (t : TagEntry)
  deriving Repr, DecidableEq

/-- The access operation chosen from the member's overall status: add when
membership_status lowercased equals "active", else remove. -/
def accessOperationOf (m : Member) : String :=
  if m.membershipStatus.toLower == "active" then "add" else "remove"

/-- The per-tag routing decision of the change_access loop: the add endpoint
when the access operation is add (member status is active, case-insensitively)
and the tag status is exactly ACTIVE, otherwise the remove endpoint. -/
def tagDecision (accessOperation : String) (t : TagEntry) : AccessCall :=
  if accessOperation == "add" && t.status == "ACTIVE" then .add t else .remove t

/-- The for-loop over the member's tags: send each tag to the endpoint chosen
by tagDecision; a non-200 worker response raises HTTPException, which the
enclosing handler turns into a 500, abandoning the remaining tags.  Returns
the final HTTP-ish code of the loop (200 when all calls succeeded) and the
calls made, in order. -/
def sendTags (worker : AccessCall → Nat) (accessOperation : String) :
    List TagEntry → List AccessCall → Nat × List AccessCall
  | [], acc => (200, acc)
  | t :: rest, acc =>
    let call := tagDecision accessOperation t
    if worker call ≠ 200 then (500, acc ++ [call])
    else sendTags worker accessOperation rest (acc ++ [call])

/-- change_access: validate member_id (absent or falsy 0 ends in the
exception handler as a 500), read identity, status and tag list from the
member store (a missing member raises, ending as 500), compute the access
operation from membership_status lowercased, run the tag loop, and on success
return 200 with processed = true.  Result: HTTP status, processed flag of the
response body, and the DH2RFID calls made. -/
def change_access (db : Nat → Option Member) (worker : AccessCall → Nat)
    (memberId : Option Nat) : Nat × Bool × List AccessCall :=
  match memberId with
  | none => (500, false, [])
  | some mid =>
    if mid = 0 then (500, false, [])
    else
      match db mid with
      | none => (500, false, [])
      | some m =>
        let res := sendTags worker (accessOperationOf m) m.tags []
        if res.1 = 200 then (200, true, res.2) else (500, false, res.2)

end Access

namespace RFIDReader

/-- The payload of a queue message as read by the consumer. -/
structure QPayload where
  operation : Option String
  tagId : Option String
  convertedTag : Option String
  deriving Repr, DecidableEq

/-- A queue message file: id, payload, timestamp. -/
structure BusMsg where
  id : String
  payload : QPayload
  timestamp : Nat
  deriving Repr, DecidableEq

/-- The JSON dictionary produced by handle_message (and by the datetime
handlers); fields that a given branch does not set are none. -/
structure RespData where
  originalId : Option String
  operation : Option String
  tagId : Option String
  convertedTag : Option String
  status : Option String
  message : Option String
  currentTime : Option String
  error : Option String
  deriving Repr, DecidableEq

/-- The response file written by process_queue: original_id, a descriptive
result string, a top-level status (always "success" on this path), and the
handler's data. -/
structure RespFile where
  originalId : String
  result : String
  status : String
  data : RespData
  deriving Repr, DecidableEq

/-- Results of the device interactions of one handled message, for the
branches whose device loops returned.  now is the wall-clock string used by
set_datetime; boardTime is the time read by get_datetime. -/
structure DeviceView where
  now : String
  boardTime : String
  deriving Repr, DecidableEq

/-- perform_board_operation on the consumer side: add and remove reach the
uhppote calls and return True; any other operation logs an error and returns
False.  A device call that raises instead is the consumer error path,
modelled separately. -/
def perform_board_operation (operation : String) : Bool :=
  operation == "add" || operation == "remove"

/-- The generic shape of the while True / try / break / except retry loop in
set_datetime and get_datetime: keep calling the device until a call returns
instead of raising.  attempt k is the outcome of the k-th device call (none =
raised).  The loop is embedded with fuel: the returned value is none when the
loop is still running after that many attempts. -/
def device_retry (attempt : Nat → Option α) : Nat → Nat → Option α
  | _, 0 => none
  | k, fuel + 1 =>
    match attempt k with
    | some r => some r
    | none => device_retry attempt (k + 1) fuel

/-- Termination of the set_datetime/get_datetime retry loop: some number of
attempts suffices for the loop to produce a result. -/
def RetryTerminates (attempt : Nat → Option α) : Prop :=
  ∃ fuel, (device_retry attempt 0 fuel).isSome

/-- set_datetime after its retry loop returned: a success dictionary; none
while the loop is still retrying. -/
def set_datetime (attempt : Nat → Option String) (fuel : Nat) (dev : DeviceView) :
    Option RespData :=
  match device_retry attempt 0 fuel with
  | none => none
  | some _ =>
    some { originalId := none, operation := none, tagId := none,
           convertedTag := none, status := some "success",
           message := some ("Date and time set to " ++ dev.now),
           currentTime := none, error := none }

/-- get_datetime after its retry loop returned: a success dictionary carrying
the board time; none while the loop is still retrying. -/
def get_datetime (attempt : Nat → Option String) (fuel : Nat) (dev : DeviceView) :
    Option RespData :=
  match device_retry attempt 0 fuel with
  | none => none
  | some _ =>
    some { originalId := none, operation := none, tagId := none,
           convertedTag := none, status := some "success",
           message := none, currentTime := some dev.boardTime, error := none }

/-- handle_message for a message whose device interactions completed: the
add/remove branch reports the board success flag, the datetime branches
return the handler dictionaries with original_id inserted afterwards, and an
unknown operation reports failure.  Every branch sets original_id to the
consumed message's id. -/
def handle_message (msgId : String) (p : QPayload) (dev : DeviceView) : RespData :=
  match p.operation with
  | some op =>
    if op == "add" || op == "remove" then
      { originalId := some msgId, operation := some op, tagId := p.tagId,
        convertedTag := p.convertedTag,
        status := some (if perform_board_operation op then "success" else "failure"),
        message := none, currentTime := none, error := none }
    else if op == "set_datetime" then
      { originalId := some msgId, operation := none, tagId := none,
        convertedTag := none, status := some "success",
        message := some ("Date and time set to " ++ dev.now),
        currentTime := none, error := none }
    else if op == "get_datetime" then
      { originalId := some msgId, operation := none, tagId := none,
        convertedTag := none, status := some "success", message := none,
        currentTime := some dev.boardTime, error := none }
    else
      { originalId := some msgId, operation := none, tagId := none,
        convertedTag := none, status := some "failure", message := none,
        currentTime := none,
        error := some ("Unknown operation: " ++ op) }
  | none =>
    { originalId := some msgId, operation := none, tagId := none,
      convertedTag := none, status := some "failure", message := none,
      currentTime := none, error := some "Unknown operation: None" }

/-- The wrapper process_queue builds around the handler result before writing
the response file. -/
def wrapResult (msgId : String) (p : QPayload) (dev : DeviceView) : RespFile :=
  { originalId := msgId,
    result := "Processed " ++ toString (repr p),
    status := "success",
    data := handle_message msgId p dev }

end RFIDReader

namespace Bus

open RFIDReader

/-- The shared-volume state: the three bus directories, each a set of files
keyed by filename stem ({id}.json). -/
structure BusState where
  queues : List (String × BusMsg)
  processing : List (String × BusMsg)
  responses : List (String × RespFile)
  deriving Repr, DecidableEq

/-- Atomic rename of a freshly written scratch file into a directory: at most
one file per name, so a rename onto an existing name replaces it. -/
def fsWrite (dir : List (String × α)) (k : String) (v : α) : List (String × α) :=
  (k, v) :: dir.filter (fun p => p.1 ≠ k)

/-- Remove the file with the given name, if present. -/
def fsRemove (dir : List (String × α)) (k : String) : List (String × α) :=
  dir.filter (fun p => p.1 ≠ k)

/-- Look up a file by name. -/
def fsLookup (dir : List (String × α)) (k : String) : Option α :=
  (dir.find? (fun p => p.1 = k)).map (·.2)

/-- Observable filesystem actions of one consumer iteration, in program
order: the claim rename into processing, the response rename into responses,
and the deletion of the processing file. -/
inductive BusEvent where
  | claimMsg (id : String)
  | writeResponse (id : String)
  | deleteProcessing (id : String)
  deriving Repr, DecidableEq

/-- How the body of one consumer iteration goes after the claim: the read,
handler and response write all complete (ok, with the device results), or
some step raises and the except/finally path runs (err). -/
inductive ConsumeOutcome where
  | ok (dev : DeviceView)
  | err
  deriving Repr, DecidableEq

/-- One iteration of process_queue, for a chosen pending file name.  Rename
into processing (a vanished file is skipped); then read the message, derive
msg_id from the file name, run handle_message, build the wrapper, fsync and
atomically rename the response into responses/{id}.json, and finally delete
the processing file.  On an exception anywhere in the try block, the finally
clause still deletes the processing file and no response is written.  The
choice of pending file (the source picks the oldest by mtime) is passed in,
since the properties proved hold for every choice. -/
def process_queue_step (s : BusState) (pick : String) (oc : ConsumeOutcome) :
    BusState × List BusEvent :=
  match fsLookup s.queues pick with
  | none => (s, [])
  | some msg =>
    let s1 : BusState :=
      { s with queues := fsRemove s.queues pick,
               processing := fsWrite s.processing pick msg }
    match oc with
    | .ok dev =>
      let resp := wrapResult pick msg.payload dev
      let s2 : BusState :=
        { s1 with responses := fsWrite s1.responses pick resp }
      ({ s2 with processing := fsRemove s2.processing pick },
       [.claimMsg pick, .writeResponse pick, .deleteProcessing pick])
    | .err =>
      ({ s1 with processing := fsRemove s1.processing pick },
       [.claimMsg pick, .deleteProcessing pick])

/-- The actions on the shared volume: a producer send (atomic rename of a
fully written message into queues), a producer reading and deleting a
response it polled, and one consumer iteration. -/
inductive BusOp where
  | send (msgId : String) (p : QPayload) (t : Nat)
  | reap (msgId : String)
  | consume (pick : String) (oc : ConsumeOutcome)

/-- Apply one bus action. -/
def applyOp (s : BusState) : BusOp → BusState
  | .send msgId p t => { s with queues := fsWrite s.queues msgId ⟨msgId, p, t⟩ }
  | .reap msgId => { s with responses := fsRemove s.responses msgId }
  | .consume pick oc => (process_queue_step s pick oc).1

/-- Apply a sequence of bus actions. -/
def applyOps (s : BusState) (ops : List BusOp) : BusState :=
  ops.foldl applyOp s

/-- Invariant of claim C7: response filenames are unique (at most one
response file per id) and every response file named id.json carries
original_id = id. -/
def ResponsesCorrelated (s : BusState) : Prop :=
  (s.responses.map (·.1)).Nodup ∧
  ∀ p ∈ s.responses, p.2.originalId = p.1

instance (s : BusState) : Decidable (ResponsesCorrelated s) := by
  unfold ResponsesCorrelated; infer_instance

end Bus

namespace DH2RFID

open RFIDReader

/-- check_responses for the single id perform_board_operation waits on: if
responses/{id}.json exists, read it, delete it, and report the id completed
together with the parsed body. -/
def check_responses (responses : List (String × RespFile)) (msgId : String) :
    (List String × Option RespFile) × List (String × RespFile) :=
  match Bus.fsLookup responses msgId with
  | some d => (([msgId], some d), Bus.fsRemove responses msgId)
  | none => (([], none), responses)

/-- The polling loop of perform_board_operation: every 0.5 s check the
responses directory for {id}.json; return (True, data) as soon as the file
exists, (False, None) once the timeout elapses.  avail k is the content of
responses/{id}.json at the k-th poll; the 10 s / 0.5 s budget is the fuel. -/
def pollResponses (avail : Nat → Option RespFile) : Nat → Nat → Bool × Option RespFile
  | _, 0 => (false, none)
  | k, fuel + 1 =>
    match avail k with
    | some d => (true, some d)
    | none => pollResponses avail (k + 1) fuel

/-- perform_board_operation on the producer side: send the message, then run
the polling loop from the first poll. -/
def perform_board_operation (avail : Nat → Option RespFile) (fuel : Nat) :
    Bool × Option RespFile :=
  pollResponses avail 0 fuel

/-- add_entry: hand the tag to perform_board_operation; raise HTTPException
500 when it reports failure, else return 200 with a success body.  Only the
boolean ("a response file appeared in time") is inspected; the reply's status
fields are not. -/
def add_entry (avail : Nat → Option RespFile) (fuel : Nat) : Nat :=
  if (perform_board_operation avail fuel).1 then 200 else 500

/-- remove_entry: same shape as add_entry over the remove operation. -/
def remove_entry (avail : Nat → Option RespFile) (fuel : Nat) : Nat :=
  if (perform_board_operation avail fuel).1 then 200 else 500

end DH2RFID

namespace Examples

open Dispatcher Access RFIDReader Bus DH2RFID

/-- Routing table with a single status route, as in scenario S1 of the spec. -/
def exRoutes : List Route := [⟨"status", "http://dhstatus/v1/change_status"⟩]

/-- An effector world in which the change for member 1 keeps failing with a
500 "db down" and every other change succeeds. -/
def exWorld : World :=
  { routes := exRoutes,
    http := fun _ p =>
      if p.memberId == some 1 then .resp 500 "db down" else .resp 200 "ok" }

/-- An unprocessed status change for member 1 (row id 1). -/
def exRow1 : ChangeRow := ⟨1, some "status", some 1, some "a", false⟩

/-- An unprocessed status change for member 2 (row id 2). -/
def exRow2 : ChangeRow := ⟨2, some "status", some 2, some "b", false⟩

/-- A change log holding the two unprocessed rows, and an empty attempt log. -/
def exState : DbState := ⟨[exRow1, exRow2], []⟩

/-- A world whose routing table is empty. -/
def noRouteWorld : World := { routes := [], http := fun _ _ => .resp 200 "ok" }

/-- A world in which every POST raises at the transport level. -/
def transportWorld : World :=
  { routes := exRoutes, http := fun _ _ => .transportError }

/-- The unroutable change of scenario S2: change type mystery, no route. -/
def mysteryRow : ChangeRow := ⟨101, some "mystery", some 7, some "m", false⟩

/-- A change log holding only the unroutable row. -/
def mysteryState : DbState := ⟨[mysteryRow], []⟩

/-- An active tag of the example member. -/
def exTagA : TagEntry := ⟨"0001460114", "12345", "ACTIVE"⟩

/-- An inactive tag of the example member. -/
def exTagI : TagEntry := ⟨"0001460115", "67890", "INACTIVE"⟩

/-- An active member (mixed-case status) with one active and one inactive tag. -/
def exMember : Member := ⟨"John", "Doe", "Active", [exTagA, exTagI]⟩

/-- A non-active member with no tags. -/
def exMemberNoTags : Member := ⟨"Jane", "Doe", "expired", []⟩

/-- A member store holding exMember at id 7 and exMemberNoTags at id 9. -/
def exDb : Nat → Option Member :=
  fun i => if i = 7 then some exMember else if i = 9 then some exMemberNoTags else none

/-- A DH2RFID worker that accepts every call. -/
def worker200 : AccessCall → Nat := fun _ => 200

/-- A DH2RFID worker that rejects every call. -/
def worker500 : AccessCall → Nat := fun _ => 500

/-- An add-operation bus payload. -/
def exPayloadAdd : QPayload := ⟨some "add", some "0001460114", some "12345"⟩

/-- A bus message carrying the add payload, minted with id m1. -/
def exMsg : BusMsg := ⟨"m1", exPayloadAdd, 5⟩

/-- Device results for a consumer iteration whose device calls returned. -/
def exDev : DeviceView := ⟨"2026-10-12T10:00:00", "2026-10-12 10:00:00"⟩

/-- A bus state with the m1 message pending and nothing else. -/
def exBusState : BusState := ⟨[("m1", exMsg)], [], []⟩

/-- A payload whose operation the hardware worker does not know. -/
def exFrobPayload : QPayload := ⟨some "frobnicate", none, none⟩

/-- The reply file the consumer writes for the unknown operation: the handler
data reports status failure. -/
def exFailReply : RespFile := wrapResult "m1" exFrobPayload exDev

/-- A responses directory in which the failure reply is present at every
poll. -/
def availFail : Nat → Option RespFile := fun _ => some exFailReply

/-- A responses directory in which no reply ever appears. -/
def availNever : Nat → Option RespFile := fun _ => none

/-- A device on which every set_time / get_time call times out. -/
def allFailAttempt : Nat → Option String := fun _ => none

/-- A device whose calls time out twice and then succeed. -/
def thirdTryAttempt : Nat → Option String :=
  fun k => if k = 2 then some "set-time-response" else none

end Examples

namespace Dispatcher

lemma applyEvents_append (s : DbState) (l1 l2 : List DbEvent) :
    applyEvents s (l1 ++ l2) = applyEvents (applyEvents s l1) l2 := by
  simp [applyEvents, List.foldl_append]

lemma rowStepEvents_noRoute (w : World) (row : ChangeRow)
    (h : get_service_for_change w.routes row.change = none) :
    rowStepEvents w row = [.rollback] := by
  simp [rowStepEvents, process_row, h]

lemma rowStepEvents_transport (w : World) (row : ChangeRow) (rt : Route)
    (h : get_service_for_change w.routes row.change = some rt)
    (hh : w.http rt.endpoint (payloadOf row) = .transportError) :
    rowStepEvents w row =
      [.postSent row.id rt.endpoint (payloadOf row), .rollback] := by
  simp [rowStepEvents, process_row, h, hh]

lemma rowStepEvents_fail (w : World) (row : ChangeRow) (rt : Route)
    (code : Nat) (body : String)
    (h : get_service_for_change w.routes row.change = some rt)
    (hh : w.http rt.endpoint (payloadOf row) = .resp code body)
    (hc : code ≠ 200) :
    rowStepEvents w row =
      [.postSent row.id rt.endpoint (payloadOf row),
       .attemptCommit ⟨row.id, rt.name, rt.endpoint, code, body⟩,
       .rollback] := by
  simp [rowStepEvents, process_row, h, hh, hc]

lemma rowStepEvents_success (w : World) (row : ChangeRow) (rt : Route)
    (body : String)
    (h : get_service_for_change w.routes row.change = some rt)
    (hh : w.http rt.endpoint (payloadOf row) = .resp 200 body) :
    rowStepEvents w row =
      [.postSent row.id rt.endpoint (payloadOf row),
       .attemptCommit ⟨row.id, rt.name, rt.endpoint, 200,
         "Successfully processed."⟩,
       .markCommit row.id] := by
  simp [rowStepEvents, process_row, h, hh]

lemma succLogged_row (w : World) (row : ChangeRow) (s : DbState)
    (h : SuccessLogged s) :
    SuccessLogged (applyEvents s (rowStepEvents w row)) := by
  rcases hroute : get_service_for_change w.routes row.change with _ | rt
  · rw [rowStepEvents_noRoute w row hroute]
    simpa [applyEvents, applyEvent] using h
  · rcases hhttp : w.http rt.endpoint (payloadOf row) with ⟨code, body⟩ | _
    · by_cases hc : code = 200
      · subst hc
        rw [rowStepEvents_success w row rt body hroute hhttp]
        simp only [applyEvents, List.foldl, applyEvent]
        intro r hr hproc
        unfold mark_as_processed at hr
        obtain ⟨r0, hr0, hf⟩ := List.mem_map.mp hr
        by_cases hid : r0.id = row.id
        · refine ⟨⟨row.id, rt.name, rt.endpoint, 200, "Successfully processed."⟩,
            by simp, ?_, rfl⟩
          rw [← hf]
          simp [hid]
        · rw [← hf] at hproc ⊢
          simp only [hid, if_false, if_neg hid] at hproc ⊢
          obtain ⟨a, ha, h1, h2⟩ := h r0 hr0 hproc
          exact ⟨a, List.mem_append_left _ ha, h1, h2⟩
      · rw [rowStepEvents_fail w row rt code body hroute hhttp hc]
        simp only [applyEvents, List.foldl, applyEvent]
        intro r hr hproc
        obtain ⟨a, ha, h1, h2⟩ := h r hr hproc
        exact ⟨a, List.mem_append_left _ ha, h1, h2⟩
    · rw [rowStepEvents_transport w row rt hroute hhttp]
      simpa [applyEvents, applyEvent] using h

lemma succLogged_batch (w : World) :
    ∀ (rows : List ChangeRow) (s : DbState), SuccessLogged s →
      SuccessLogged (process_batch w s rows).1 := by
  intro rows
  induction rows with
  | nil => intro s h; simpa [process_batch] using h
  | cons row rest ih =>
    intro s h
    simpa [process_batch] using ih _ (succLogged_row w row s h)

lemma succLogged_fetchLoop (w : World) (b : Nat) :
    ∀ (fuel : Nat) (s : DbState) (lastId : Nat), SuccessLogged s →
      SuccessLogged (fetchLoop w b fuel s lastId).1 := by
  intro fuel
  induction fuel with
  | zero => intro s lastId h; simpa [fetchLoop] using h
  | succ f ih =>
    intro s lastId h
    by_cases he : (fetch_unprocessed_batch s.changes b lastId).isEmpty
    · simpa [fetchLoop, he] using h
    · by_cases hlen : (fetch_unprocessed_batch s.changes b lastId).length < b
      · simpa [fetchLoop, he, hlen] using
          succLogged_batch w (fetch_unprocessed_batch s.changes b lastId) s h
      · simpa [fetchLoop, he, hlen] using
          ih _ _ (succLogged_batch w (fetch_unprocessed_batch s.changes b lastId) s h)

end Dispatcher

namespace Dispatcher

/-- C1: for every change row that ends up with processed = true after a
dispatcher pass (the resume pass or a notification pass), the dispatcher has
appended at least one Attempt row for that row with response_code = 200:
process_row commits the success attempt (code 200) before reporting success,
and process_batch marks a row processed only on success, so SuccessLogged is
preserved by both kinds of pass. -/
theorem c1_processed_has_success_attempt (w : World) (b fuel : Nat)
    (s : DbState) (h : SuccessLogged s) :
    SuccessLogged (resume_unprocessed w b s fuel).1 ∧
    SuccessLogged (process_pending_notifications w b s fuel).1 := by
  constructor
  · unfold resume_unprocessed
    by_cases hc : count_unprocessed s.changes = 0
    · simpa [hc] using h
    · simpa [hc] using succLogged_fetchLoop w b fuel s 0 h
  · exact succLogged_fetchLoop w b fuel s 0 h

/-- Witness for C1 at a concrete world and change log. -/
theorem c1_processed_has_success_attempt_witness :
    SuccessLogged Examples.exState ∧
    SuccessLogged (resume_unprocessed Examples.exWorld 10 Examples.exState 5).1 :=
  ⟨by decide,
   (c1_processed_has_success_attempt Examples.exWorld 10 5 Examples.exState
     (by decide)).1⟩

/-- C2 counterexample: the unroutable change of scenario S2 is processed by a
dispatcher pass, yet the attempt log stays empty (no Attempt row with a
synthetic error code is appended) while the row is left unprocessed — the
claim's required Attempt row does not exist. -/
theorem c2_counterexample :
    get_service_for_change Examples.noRouteWorld.routes Examples.mysteryRow.change
        = none ∧
    (process_batch Examples.noRouteWorld Examples.mysteryState
        [Examples.mysteryRow]).1.attempts = [] ∧
    (process_batch Examples.noRouteWorld Examples.mysteryState
        [Examples.mysteryRow]).1.changes = [Examples.mysteryRow] := by
  decide

/-- C2 (amended): a change row whose change-type key resolves to no route, or
whose POST fails at the transport level, is left unprocessed, but no Attempt
row is appended for it — the failure is only written to the application log;
Attempt rows are only written when an HTTP response was received. -/
theorem c2_failed_dispatch_leaves_row_unprocessed_without_attempt
    (w : World) (s : DbState) (row : ChangeRow) (rt : Route) :
    (get_service_for_change w.routes row.change = none →
      rowStepEvents w row = [.rollback] ∧
      (applyEvents s (rowStepEvents w row)).attempts = s.attempts ∧
      (applyEvents s (rowStepEvents w row)).changes = s.changes) ∧
    (get_service_for_change w.routes row.change = some rt →
      w.http rt.endpoint (payloadOf row) = .transportError →
      rowStepEvents w row =
        [.postSent row.id rt.endpoint (payloadOf row), .rollback] ∧
      (applyEvents s (rowStepEvents w row)).attempts = s.attempts ∧
      (applyEvents s (rowStepEvents w row)).changes = s.changes) := by
  constructor
  · intro h
    have he := rowStepEvents_noRoute w row h
    exact ⟨he, by simp [he, applyEvents, applyEvent], by simp [he, applyEvents, applyEvent]⟩
  · intro h hh
    have he := rowStepEvents_transport w row rt h hh
    exact ⟨he, by simp [he, applyEvents, applyEvent], by simp [he, applyEvents, applyEvent]⟩

/-- Witness for C2 (amended): the no-route case at the S2 row, and the
transport case at the S1 row. -/
theorem c2_failed_dispatch_witness :
    get_service_for_change Examples.noRouteWorld.routes Examples.mysteryRow.change
        = none ∧
    (applyEvents Examples.mysteryState
        (rowStepEvents Examples.noRouteWorld Examples.mysteryRow)).attempts
      = Examples.mysteryState.attempts :=
  ⟨by decide,
   ((c2_failed_dispatch_leaves_row_unprocessed_without_attempt
      Examples.noRouteWorld Examples.mysteryState Examples.mysteryRow
      ⟨"status", "http://dhstatus/v1/change_status"⟩).1 (by decide)).2.1⟩

/-- C3 counterexample: for the successfully dispatched row 2 of the example
world, the durable-event trace of its processing step violates
attempt/processed-mark atomicity: after the first two commits (a crash point)
the 200 attempt row is durable while the row is still unprocessed, so the two
do not sit in one transaction boundary. -/
theorem c3_counterexample :
    ¬ AttemptMarkAtomic Examples.exState
        (rowStepEvents Examples.exWorld Examples.exRow2) 2 := by
  decide

/-- C3 (amended): on a 200 result the attempt insert commits on its own
connection strictly before the processed-mark commits on the batch
connection — two separate transactions in that order, not one — and on a
non-200 result the row is not marked processed (the change table is left
untouched by the row's events). -/
theorem c3_success_commit_order_and_failure_unmarked
    (w : World) (s : DbState) (row : ChangeRow) (rt : Route)
    (code : Nat) (body : String)
    (hroute : get_service_for_change w.routes row.change = some rt) :
    (w.http rt.endpoint (payloadOf row) = .resp 200 body →
      rowStepEvents w row =
        [.postSent row.id rt.endpoint (payloadOf row),
         .attemptCommit ⟨row.id, rt.name, rt.endpoint, 200,
           "Successfully processed."⟩,
         .markCommit row.id]) ∧
    (w.http rt.endpoint (payloadOf row) = .resp code body → code ≠ 200 →
      (applyEvents s (rowStepEvents w row)).changes = s.changes) := by
  constructor
  · intro hh
    exact rowStepEvents_success w row rt body hroute hh
  · intro hh hc
    have he := rowStepEvents_fail w row rt code body hroute hh hc
    simp [he, applyEvents, applyEvent]

/-- Witness for C3 (amended) at the example world: row 2 succeeds (commit
order visible), row 1 fails with 500 (left unmarked). -/
theorem c3_success_commit_order_witness :
    (applyEvents Examples.exState
        (rowStepEvents Examples.exWorld Examples.exRow1)).changes
      = Examples.exState.changes :=
  (c3_success_commit_order_and_failure_unmarked Examples.exWorld
      Examples.exState Examples.exRow1
      ⟨"status", "http://dhstatus/v1/change_status"⟩ 500 "db down"
      (by decide)).2 (by decide) (by decide)

end Dispatcher

namespace Access

lemma sendTags_all200 (worker : AccessCall → Nat) (op : String)
    (hall : ∀ c, worker c = 200) :
    ∀ (tags : List TagEntry) (acc : List AccessCall),
      sendTags worker op tags acc = (200, acc ++ tags.map (tagDecision op)) := by
  intro tags
  induction tags with
  | nil => intro acc; simp [sendTags]
  | cons t rest ih =>
    intro acc
    simp [sendTags, hall (tagDecision op t), ih]

/-- C6: when the member exists and the DH2RFID worker accepts every call, the
access effector sends exactly one call per tag, chosen by the dual-key rule:
a tag goes to the add endpoint iff its own status is exactly ACTIVE and the
member's membership_status lowercases to active, and to the remove endpoint
otherwise — in particular every tag whose status is not ACTIVE is removed,
and a member in any non-active status has every tag removed. -/
theorem c6_dual_key_rule (db : Nat → Option Member) (worker : AccessCall → Nat)
    (mid : Nat) (m : Member)
    (hmid : mid ≠ 0) (hm : db mid = some m) (hall : ∀ c, worker c = 200) :
    (change_access db worker (some mid)).2.2
      = m.tags.map (tagDecision (accessOperationOf m)) ∧
    ∀ t : TagEntry,
      (tagDecision (accessOperationOf m) t = .add t ↔
        (m.membershipStatus.toLower = "active" ∧ t.status = "ACTIVE")) ∧
      (t.status ≠ "ACTIVE" → tagDecision (accessOperationOf m) t = .remove t) ∧
      (m.membershipStatus.toLower ≠ "active" →
        tagDecision (accessOperationOf m) t = .remove t) := by
  constructor
  · simp [change_access, hmid, hm, sendTags_all200 worker (accessOperationOf m) hall]
  · intro t
    by_cases hA : m.membershipStatus.toLower = "active" <;>
      by_cases hT : t.status = "ACTIVE" <;>
        simp [tagDecision, accessOperationOf, hA, hT]

/-- Witness for C6: the active member 7 with one ACTIVE and one INACTIVE tag
gets exactly an add call for the active tag and a remove call for the
inactive one. -/
theorem c6_dual_key_rule_witness :
    (change_access Examples.exDb Examples.worker200 (some 7)).2.2
      = Examples.exMember.tags.map (tagDecision (accessOperationOf Examples.exMember)) :=
  (c6_dual_key_rule Examples.exDb Examples.worker200 7 Examples.exMember
    (by decide) (by decide) (fun _ => rfl)).1

/-- C10: an access change for an existing member with an empty tag list makes
no DH2RFID calls at all and returns HTTP 200 with processed = true, whatever
the worker would have answered. -/
theorem c10_tagless_member_is_processed (db : Nat → Option Member)
    (worker : AccessCall → Nat) (mid : Nat) (m : Member)
    (hmid : mid ≠ 0) (hm : db mid = some m) (ht : m.tags = []) :
    change_access db worker (some mid) = (200, true, []) := by
  simp [change_access, hmid, hm, ht, sendTags]

/-- Witness for C10: the tagless member 9, against a worker that would reject
every call, still yields 200 / processed with no calls. -/
theorem c10_tagless_member_is_processed_witness :
    change_access Examples.exDb Examples.worker500 (some 9) = (200, true, []) :=
  c10_tagless_member_is_processed Examples.exDb Examples.worker500 9
    Examples.exMemberNoTags (by decide) (by decide) rfl

end Access

namespace Bus

lemma fsWrite_correlated (dir : List (String × RFIDReader.RespFile))
    (k : String) (v : RFIDReader.RespFile)
    (hnd : (dir.map (·.1)).Nodup)
    (hmem : ∀ p ∈ dir, p.2.originalId = p.1)
    (hv : v.originalId = k) :
    ((fsWrite dir k v).map (·.1)).Nodup ∧
    ∀ p ∈ fsWrite dir k v, p.2.originalId = p.1 := by
  constructor
  · simp only [fsWrite, List.map_cons]
    refine List.nodup_cons.mpr ⟨?_, hnd.sublist (List.Sublist.map _ (List.filter_sublist _))⟩
    intro hk
    obtain ⟨p, hp, hpk⟩ := List.mem_map.mp hk
    have hne := List.of_mem_filter hp
    simp only [decide_not, Bool.not_eq_true', decide_eq_false_iff_not] at hne
    exact hne hpk
  · intro p hp
    rcases List.mem_cons.mp hp with h | h
    · subst h; exact hv
    · exact hmem p (List.mem_of_mem_filter h)

lemma correlated_applyOp (s : BusState) (op : BusOp)
    (h : ResponsesCorrelated s) : ResponsesCorrelated (applyOp s op) := by
  obtain ⟨hnd, hmem⟩ := h
  cases op with
  | send msgId p t => exact ⟨hnd, hmem⟩
  | reap msgId =>
    refine ⟨hnd.sublist (List.Sublist.map _ (List.filter_sublist _)), ?_⟩
    intro p hp
    exact hmem p (List.mem_of_mem_filter hp)
  | consume pick oc =>
    show ResponsesCorrelated (process_queue_step s pick oc).1
    unfold process_queue_step
    cases hq : fsLookup s.queues pick with
    | none => exact ⟨hnd, hmem⟩
    | some msg =>
      cases oc with
      | err => exact ⟨hnd, hmem⟩
      | ok dev =>
        exact fsWrite_correlated s.responses pick
          (RFIDReader.wrapResult pick msg.payload dev) hnd hmem rfl

lemma correlated_applyOps (ops : List BusOp) :
    ∀ s : BusState, ResponsesCorrelated s → ResponsesCorrelated (applyOps s ops) := by
  induction ops with
  | nil => intro s h; exact h
  | cons op rest ih =>
    intro s h
    exact ih (applyOp s op) (correlated_applyOp s op h)

lemma correlated_lookup (s : BusState) (h : ResponsesCorrelated s)
    (id_ : String) (r : RFIDReader.RespFile)
    (hl : fsLookup s.responses id_ = some r) : r.originalId = id_ := by
  unfold fsLookup at hl
  cases hf : s.responses.find? (fun p => p.1 = id_) with
  | none => rw [hf] at hl; simp at hl
  | some p =>
    rw [hf] at hl
    simp only [Option.map_some'] at hl
    have hpmem := List.mem_of_find?_eq_some hf
    have hpid := List.find?_some hf
    simp only [decide_eq_true_eq] at hpid
    have hr : p.2 = r := by injection hl
    rw [← hr, ← hpid]
    exact h.2 p hpmem

/-- C7: starting from any shared-volume state whose responses directory is
correlated (at most one response file per id, each named id.json with
original_id = id), any sequence of producer sends, producer response reads,
and consumer iterations preserves that correlation — and a producer that
polls responses/{id}.json therefore never reads a response whose original_id
differs from its id.  The consumer writes the response for a consumed message
under exactly the consumed filename stem and stamps original_id with it. -/
theorem c7_response_files_correlated (s : BusState) (ops : List BusOp)
    (h : ResponsesCorrelated s) :
    ResponsesCorrelated (applyOps s ops) ∧
    ∀ (id_ : String) (r : RFIDReader.RespFile),
      fsLookup (applyOps s ops).responses id_ = some r → r.originalId = id_ := by
  have hinv := correlated_applyOps ops s h
  exact ⟨hinv, fun id_ r hl => correlated_lookup _ hinv id_ r hl⟩

/-- Witness for C7: from the example state with message m1 pending, send a
second message, consume both, and read m1's response. -/
theorem c7_response_files_correlated_witness :
    ResponsesCorrelated Examples.exBusState ∧
    ResponsesCorrelated
      (applyOps Examples.exBusState
        [.send "m2" Examples.exFrobPayload 6,
         .consume "m1" (.ok Examples.exDev),
         .consume "m2" (.ok Examples.exDev),
         .reap "m1"]) :=
  ⟨by decide,
   (c7_response_files_correlated Examples.exBusState
     [.send "m2" Examples.exFrobPayload 6,
      .consume "m1" (.ok Examples.exDev),
      .consume "m2" (.ok Examples.exDev),
      .reap "m1"] (by decide)).1⟩

/-- C8 counterexample: when the try block of the consumer iteration raises
(for example an unreadable message file), the finally clause still deletes
the claimed file from processing while no response for it was ever written —
the consumer removes a claimed message without publishing its reply. -/
theorem c8_counterexample :
    BusEvent.deleteProcessing "m1"
        ∈ (process_queue_step Examples.exBusState "m1" .err).2 ∧
    BusEvent.writeResponse "m1"
        ∉ (process_queue_step Examples.exBusState "m1" .err).2 := by
  decide

/-- C8 (amended): on a successfully handled message the consumer's filesystem
actions are exactly claim, then atomic response rename, then deletion of the
processing file — the response strictly precedes the deletion; but when the
try block raises, the actions are claim then deletion, with no response
written. -/
theorem c8_delete_follows_response_only_on_success (s : BusState)
    (pick : String) (msg : RFIDReader.BusMsg) (dev : RFIDReader.DeviceView)
    (hq : fsLookup s.queues pick = some msg) :
    (process_queue_step s pick (.ok dev)).2
      = [.claimMsg pick, .writeResponse pick, .deleteProcessing pick] ∧
    (process_queue_step s pick .err).2
      = [.claimMsg pick, .deleteProcessing pick] := by
  constructor <;> simp [process_queue_step, hq]

/-- Witness for C8 (amended) at the example pending message. -/
theorem c8_delete_follows_response_only_on_success_witness :
    (process_queue_step Examples.exBusState "m1" (.ok Examples.exDev)).2
      = [.claimMsg "m1", .writeResponse "m1", .deleteProcessing "m1"] :=
  (c8_delete_follows_response_only_on_success Examples.exBusState "m1"
    Examples.exMsg Examples.exDev (by decide)).1

end Bus

namespace RFIDReader

lemma device_retry_stuck (attempt : Nat → Option α) :
    ∀ (fuel j : Nat), (∀ k < fuel, attempt (j + k) = none) →
      device_retry attempt j fuel = none := by
  intro fuel
  induction fuel with
  | zero => intro j _; rfl
  | succ f ih =>
    intro j hfail
    have h0 : attempt j = none := by simpa using hfail 0 (Nat.succ_pos f)
    have hrest : ∀ k < f, attempt (j + 1 + k) = none := by
      intro k hk
      have := hfail (k + 1) (Nat.succ_lt_succ hk)
      simpa [Nat.add_assoc, Nat.add_comm 1 k] using this
    simp [device_retry, h0, ih (j + 1) hrest]

lemma device_retry_first_success (attempt : Nat → Option α) (r : α) :
    ∀ (n j : Nat), (∀ k < n, attempt (j + k) = none) → attempt (j + n) = some r →
      ∀ fuel, n < fuel → device_retry attempt j fuel = some r := by
  intro n
  induction n with
  | zero =>
    intro j _ hn fuel hfuel
    obtain ⟨f, rfl⟩ := Nat.exists_eq_succ_of_ne_zero (Nat.pos_iff_ne_zero.mp hfuel)
    simp only [Nat.add_zero] at hn
    simp [device_retry, hn]
  | succ m ih =>
    intro j hbefore hn fuel hfuel
    obtain ⟨f, rfl⟩ := Nat.exists_eq_succ_of_ne_zero
      (Nat.pos_iff_ne_zero.mp (Nat.lt_of_le_of_lt (Nat.zero_le _) hfuel))
    have h0 : attempt j = none := by simpa using hbefore 0 (Nat.succ_pos m)
    have hrest : ∀ k < m, attempt (j + 1 + k) = none := by
      intro k hk
      have := hbefore (k + 1) (Nat.succ_lt_succ hk)
      simpa [Nat.add_assoc, Nat.add_comm 1 k] using this
    have hn' : attempt (j + 1 + m) = some r := by
      simpa [Nat.add_assoc, Nat.add_comm 1 m] using hn
    have hf : m < f := Nat.lt_of_succ_lt_succ hfuel
    simp [device_retry, h0, ih (j + 1) hrest hn' f hf]

/-- C9 counterexample: on a device where every set_time/get_time call times
out, the while-True retry loop of set_datetime/get_datetime never produces a
result after any number of attempts — the handler is not total and never
reports failure, contradicting the claimed bounded retry. -/
theorem c9_counterexample : ¬ RetryTerminates Examples.allFailAttempt := by
  rintro ⟨fuel, hf⟩
  rw [device_retry_stuck Examples.allFailAttempt fuel 0 (fun k _ => rfl)] at hf
  simp at hf

/-- C9 (amended): the retry loop around the device call is unbounded: after
any number of failed attempts not exceeding the first success it is still
running (it never reports failure), and as soon as some attempt succeeds it
terminates with exactly that device response; the set_datetime and
get_datetime handlers then return dictionaries whose status is success.  The
loop terminates if and only if some attempt succeeds. -/
theorem c9_retry_is_unbounded_until_success (attempt : Nat → Option String)
    (n : Nat) (r : String) (dev : DeviceView)
    (hbefore : ∀ k < n, attempt k = none) (hn : attempt n = some r) :
    (∀ fuel ≤ n, device_retry attempt 0 fuel = none) ∧
    (∀ fuel, n < fuel → device_retry attempt 0 fuel = some r) ∧
    (∀ fuel, n < fuel →
      set_datetime attempt fuel dev
        = some { originalId := none, operation := none, tagId := none,
                 convertedTag := none, status := some "success",
                 message := some ("Date and time set to " ++ dev.now),
                 currentTime := none, error := none } ∧
      get_datetime attempt fuel dev
        = some { originalId := none, operation := none, tagId := none,
                 convertedTag := none, status := some "success",
                 message := none, currentTime := some dev.boardTime,
                 error := none }) := by
  have hsucc : ∀ fuel, n < fuel → device_retry attempt 0 fuel = some r := by
    intro fuel hfuel
    exact device_retry_first_success attempt r n 0
      (fun k hk => by simpa using hbefore k hk) (by simpa using hn) fuel hfuel
  refine ⟨?_, hsucc, ?_⟩
  · intro fuel hfuel
    exact device_retry_stuck attempt fuel 0
      (fun k hk => by simpa using hbefore k (Nat.lt_of_lt_of_le hk hfuel))
  · intro fuel hfuel
    constructor <;> simp [set_datetime, get_datetime, hsucc fuel hfuel]

/-- Witness for C9 (amended): a device that fails twice then succeeds — four
attempts of fuel find the third-call response, two attempts are still
running. -/
theorem c9_retry_is_unbounded_until_success_witness :
    device_retry Examples.thirdTryAttempt 0 2 = none ∧
    device_retry Examples.thirdTryAttempt 0 4 = some "set-time-response" := by
  have h := c9_retry_is_unbounded_until_success Examples.thirdTryAttempt 2
    "set-time-response" Examples.exDev (by decide) (by decide)
  exact ⟨h.1 2 (by decide), h.2.1 4 (by decide)⟩

end RFIDReader

namespace DH2RFID

open RFIDReader

lemma pollResponses_found_iff (avail : Nat → Option RespFile) :
    ∀ (fuel k : Nat),
      ((pollResponses avail k fuel).1 = true ↔ ∃ i < fuel, (avail (k + i)).isSome) := by
  intro fuel
  induction fuel with
  | zero => intro k; simp [pollResponses]
  | succ f ih =>
    intro k
    cases ha : avail k with
    | some d =>
      simp only [pollResponses, ha]
      constructor
      · intro _; exact ⟨0, Nat.succ_pos f, by simp [ha]⟩
      · intro _; trivial
    | none =>
      simp only [pollResponses, ha]
      rw [ih (k + 1)]
      constructor
      · rintro ⟨i, hi, hsome⟩
        refine ⟨i + 1, Nat.succ_lt_succ hi, ?_⟩
        simpa [Nat.add_assoc, Nat.add_comm 1 i] using hsome
      · rintro ⟨i, hi, hsome⟩
        cases i with
        | zero => simp [ha] at hsome
        | succ i' =>
          refine ⟨i', Nat.lt_of_succ_lt_succ hi, ?_⟩
          simpa [Nat.add_assoc, Nat.add_comm 1 i'] using hsome

/-- C4 (amended): the add_entry and remove_entry endpoints return 200 exactly
when a response file for their message appears within the polling window, and
500 exactly when none does; the reply's reported status fields are never
inspected, so a reply whose body reports failure still yields HTTP 200. -/
theorem c4_endpoint_status_ignores_reply_body (avail : Nat → Option RespFile)
    (fuel : Nat) :
    (add_entry avail fuel = 200 ↔ ∃ i < fuel, (avail i).isSome) ∧
    (add_entry avail fuel = 500 ↔ ¬ ∃ i < fuel, (avail i).isSome) ∧
    remove_entry avail fuel = add_entry avail fuel := by
  have hiff := pollResponses_found_iff avail fuel 0
  simp only [Nat.zero_add] at hiff
  refine ⟨?_, ?_, rfl⟩
  · unfold add_entry perform_board_operation
    rw [← hiff]
    cases (pollResponses avail 0 fuel).1 <;> simp
  · unfold add_entry perform_board_operation
    rw [← hiff]
    cases (pollResponses avail 0 fuel).1 <;> simp

/-- Witness for C4 (amended): with the failure reply present the endpoint
answers 200; with no reply ever appearing it answers 500. -/
theorem c4_endpoint_status_ignores_reply_body_witness :
    add_entry Examples.availFail 20 = 200 ∧ add_entry Examples.availNever 20 = 500 :=
  ⟨(c4_endpoint_status_ignores_reply_body Examples.availFail 20).1.mpr
     ⟨0, by decide, rfl⟩,
   (c4_endpoint_status_ignores_reply_body Examples.availNever 20).2.1.mpr
     (by rintro ⟨i, _, hsome⟩; simp [Examples.availNever] at hsome)⟩

/-- C4 counterexample: the consumer's reply for an unknown operation reports
status failure in its handler data, yet add_entry, polling that reply,
returns HTTP 200 — the dispatch does not fail and the change would be marked
processed instead of retried. -/
theorem c4_counterexample :
    Examples.exFailReply.data.status = some "failure" ∧
    add_entry Examples.availFail 20 = 200 := by
  constructor
  · rfl
  · simp [add_entry, perform_board_operation, pollResponses, Examples.availFail]

end DH2RFID

namespace Dispatcher

lemma fetch_eq_take (changes : List ChangeRow) (b afterId : Nat)
    (hs : changes.Pairwise (fun a c => a.id < c.id)) :
    fetch_unprocessed_batch changes b afterId
      = (changes.filter (unprocAfter afterId)).take b := by
  unfold fetch_unprocessed_batch
  congr 1
  apply List.Sorted.insertionSort_eq
  exact (hs.sublist (List.filter_sublist _)).imp (fun h => Nat.le_of_lt h)

lemma mark_id (a : ChangeRow) (i : Nat) :
    (if a.id = i then { a with processed := true } else a).id = a.id := by
  by_cases h : a.id = i <;> simp [h]

lemma mark_pairwise (cs : List ChangeRow) (i : Nat)
    (hs : cs.Pairwise (fun a c => a.id < c.id)) :
    (mark_as_processed cs i).Pairwise (fun a c => a.id < c.id) := by
  unfold mark_as_processed
  rw [List.pairwise_map]
  exact hs.imp (fun h => by simpa [mark_id] using h)

lemma mark_filter_high (cs : List ChangeRow) (i x : Nat) (hix : i ≤ x) :
    (mark_as_processed cs i).filter (unprocAfter x) = cs.filter (unprocAfter x) := by
  unfold mark_as_processed
  induction cs with
  | nil => rfl
  | cons r rest ih =>
    simp only [List.map_cons]
    by_cases h : r.id = i
    · rw [if_pos h]
      have h1 : unprocAfter x { r with processed := true } = false := by
        simp [unprocAfter]
      have h2 : unprocAfter x r = false := by
        have hx : ¬ x < r.id := by omega
        simp [unprocAfter, hx]
      rw [List.filter_cons, List.filter_cons, h1, h2]
      simpa using ih
    · rw [if_neg h, List.filter_cons, List.filter_cons]
      cases hc : unprocAfter x r <;> simp [hc, ih]

lemma step_changes_shape (w : World) (row : ChangeRow) (s : DbState) :
    (applyEvents s (rowStepEvents w row)).changes = s.changes ∨
    (applyEvents s (rowStepEvents w row)).changes
      = mark_as_processed s.changes row.id := by
  rcases hroute : get_service_for_change w.routes row.change with _ | rt
  · left; rw [rowStepEvents_noRoute w row hroute]; rfl
  · rcases hhttp : w.http rt.endpoint (payloadOf row) with ⟨code, body⟩ | _
    · by_cases hc : code = 200
      · subst hc
        right
        rw [rowStepEvents_success w row rt body hroute hhttp]
        rfl
      · left; rw [rowStepEvents_fail w row rt code body hroute hhttp hc]; rfl
    · left; rw [rowStepEvents_transport w row rt hroute hhttp]; rfl

lemma batch_changes_filter_high (w : World) (x : Nat) :
    ∀ (rows : List ChangeRow) (s : DbState), (∀ row ∈ rows, row.id ≤ x) →
      (process_batch w s rows).1.changes.filter (unprocAfter x)
        = s.changes.filter (unprocAfter x) := by
  intro rows
  induction rows with
  | nil => intro s _; rfl
  | cons row rest ih =>
    intro s hle
    have hrow : row.id ≤ x := hle row (List.mem_cons_self row rest)
    have hrest : ∀ r ∈ rest, r.id ≤ x := fun r hr => hle r (List.mem_cons_of_mem row hr)
    show (process_batch w (applyEvents s (rowStepEvents w row)) rest).1.changes.filter _ = _
    rw [ih (applyEvents s (rowStepEvents w row)) hrest]
    rcases step_changes_shape w row s with h | h
    · rw [h]
    · rw [h]; exact mark_filter_high s.changes row.id x hrow

lemma batch_changes_pairwise (w : World) :
    ∀ (rows : List ChangeRow) (s : DbState),
      s.changes.Pairwise (fun a c => a.id < c.id) →
      (process_batch w s rows).1.changes.Pairwise (fun a c => a.id < c.id) := by
  intro rows
  induction rows with
  | nil => intro s h; exact h
  | cons row rest ih =>
    intro s h
    show ((process_batch w (applyEvents s (rowStepEvents w row)) rest).1.changes).Pairwise _
    apply ih
    rcases step_changes_shape w row s with hh | hh
    · rw [hh]; exact h
    · rw [hh]; exact mark_pairwise s.changes row.id h

end Dispatcher

namespace Dispatcher

lemma getLastD_mem_of_cons (x : ChangeRow) (xs : List ChangeRow) (d : ChangeRow) :
    (x :: xs).getLastD d ∈ x :: xs := by
  rw [List.getLastD_cons]
  exact List.getLastD_mem_cons xs x

lemma pairwise_le_getLastD (d : ChangeRow) :
    ∀ (l : List ChangeRow), l.Pairwise (fun a c => a.id < c.id) →
      ∀ r ∈ l, r.id ≤ (l.getLastD d).id := by
  intro l
  induction l with
  | nil => intro _ r hr; cases hr
  | cons x xs ih =>
    intro h r hr
    rw [List.getLastD_cons]
    rcases List.mem_cons.mp hr with hx | hr'
    · rw [hx]
      rcases xs with _ | ⟨y, ys⟩
      · simp [List.getLastD_nil]
      · have hmem := getLastD_mem_of_cons y ys x
        exact Nat.le_of_lt ((List.pairwise_cons.mp h).1 _ hmem)
    · rcases xs with _ | ⟨y, ys⟩
      · cases hr'
      · rw [List.getLastD_cons]
        have := ih (List.pairwise_cons.mp h).2 r hr'
        rwa [List.getLastD_cons] at this

lemma sorted_filter_getLastD_take_drop :
    ∀ (l : List ChangeRow) (n : Nat), l.Pairwise (fun a c => a.id < c.id) →
      0 < n → n ≤ l.length →
      l.filter (fun r => decide (((l.take n).getLastD default).id < r.id))
        = l.drop n := by
  intro l
  induction l with
  | nil =>
    intro n _ hn hlen
    simp at hlen
    omega
  | cons x xs ih =>
    intro n h hn hlen
    cases n with
    | zero => omega
    | succ m =>
      cases m with
      | zero =>
        have hpiv : (((x :: xs).take 1).getLastD default) = x := by
          simp [List.getLastD_cons]
        rw [hpiv, List.filter_cons]
        have hx : ¬ x.id < x.id := Nat.lt_irrefl _
        rw [decide_eq_false hx]
        simp only [Bool.false_eq_true, if_false]
        rw [List.filter_eq_self.mpr]
        · rfl
        · intro a ha
          exact decide_eq_true ((List.pairwise_cons.mp h).1 a ha)
      | succ m' =>
        have hxs_len : m' + 1 ≤ xs.length := by
          simpa using Nat.le_of_succ_le_succ hlen
        rcases xs with _ | ⟨y, ys⟩
        · simp at hxs_len
        · have hpiv : (((x :: y :: ys).take (m' + 1 + 1)).getLastD default)
              = (((y :: ys).take (m' + 1)).getLastD default) := by
            show ((x :: (y :: ys).take (m' + 1)).getLastD default) = _
            rcases htk : (y :: ys).take (m' + 1) with _ | ⟨z, zs⟩
            · simp at htk
            · simp only [htk, List.getLastD_cons]
          rw [hpiv]
          have hpivmem : ((y :: ys).take (m' + 1)).getLastD default ∈ y :: ys := by
            have hsub := List.take_subset (m' + 1) (y :: ys)
            rcases htk : (y :: ys).take (m' + 1) with _ | ⟨z, zs⟩
            · simp at htk
            · rw [htk] at hsub
              exact hsub (getLastD_mem_of_cons z zs default)
          have hxlt : x.id < (((y :: ys).take (m' + 1)).getLastD default).id :=
            (List.pairwise_cons.mp h).1 _ hpivmem
          rw [List.filter_cons]
          have hnot : ¬ (((y :: ys).take (m' + 1)).getLastD default).id < x.id :=
            Nat.lt_asymm hxlt
          rw [decide_eq_false hnot]
          simp only [Bool.false_eq_true, if_false]
          exact ih (m' + 1) (List.pairwise_cons.mp h).2 (Nat.succ_pos m') hxs_len
end Dispatcher

namespace Dispatcher

lemma filter_unprocAfter_subsume (cs : List ChangeRow) (lastId last' : Nat)
    (h : lastId ≤ last') :
    cs.filter (unprocAfter last')
      = (cs.filter (unprocAfter lastId)).filter (fun r => decide (last' < r.id)) := by
  rw [List.filter_filter]
  apply List.filter_congr
  intro r _
  unfold unprocAfter
  cases hp : r.processed
  · by_cases h1 : last' < r.id
    · have h2 : lastId < r.id := by omega
      simp [h1, h2]
    · simp [h1]
  · simp

lemma fetchLoop_trace (w : World) (b : Nat) (hb : 0 < b) :
    ∀ (fuel : Nat) (s : DbState) (lastId : Nat),
      s.changes.Pairwise (fun a c => a.id < c.id) →
      (s.changes.filter (unprocAfter lastId)).length < fuel →
      (fetchLoop w b fuel s lastId).2.1 = s.changes.filter (unprocAfter lastId) := by
  intro fuel
  induction fuel with
  | zero =>
    intro s lastId _ hf
    exact absurd hf (Nat.not_lt_zero _)
  | succ f ih =>
    intro s lastId hs hf
    have hfetch := fetch_eq_take s.changes b lastId hs
    have upair : (s.changes.filter (unprocAfter lastId)).Pairwise
        (fun a c => a.id < c.id) := hs.sublist (List.filter_sublist _)
    simp only [fetchLoop]
    by_cases hemp : (fetch_unprocessed_batch s.changes b lastId).isEmpty
    · have hnil : (s.changes.filter (unprocAfter lastId)).take b = [] := by
        rw [← hfetch]
        exact List.isEmpty_iff.mp hemp
      have hunil : s.changes.filter (unprocAfter lastId) = [] := by
        rcases hcase : s.changes.filter (unprocAfter lastId) with _ | ⟨a, t⟩
        · rfl
        · rw [hcase] at hnil
          rcases b with _ | b'
          · omega
          · simp at hnil
      simp [hemp, hunil]
    · by_cases hlt : (fetch_unprocessed_batch s.changes b lastId).length < b
      · have hlen : (s.changes.filter (unprocAfter lastId)).length < b := by
          rw [hfetch] at hlt
          rcases Nat.lt_or_ge (s.changes.filter (unprocAfter lastId)).length b with hcase | hcase
          · exact hcase
          · rw [List.length_take] at hlt
            omega
        have htake : (s.changes.filter (unprocAfter lastId)).take b
            = s.changes.filter (unprocAfter lastId) :=
          List.take_of_length_le (Nat.le_of_lt hlen)
        rw [if_neg hemp, if_pos hlt]
        show fetch_unprocessed_batch s.changes b lastId = _
        rw [hfetch, htake]
      · -- full batch: rows has exactly b elements and the loop recurses
        have hble : b ≤ (s.changes.filter (unprocAfter lastId)).length := by
          rw [hfetch, List.length_take] at hlt
          omega
        -- the batch, as take b of the filtered rows
        have hrowsne : fetch_unprocessed_batch s.changes b lastId ≠ [] := by
          intro hx
          rw [hx] at hemp
          simp at hemp
        have hrowspair : (fetch_unprocessed_batch s.changes b lastId).Pairwise
            (fun a c => a.id < c.id) := by
          rw [hfetch]
          exact upair.sublist (List.take_sublist _ _)
        have hlastmem : (fetch_unprocessed_batch s.changes b lastId).getLastD default
            ∈ fetch_unprocessed_batch s.changes b lastId := by
          rcases hcase : fetch_unprocessed_batch s.changes b lastId with _ | ⟨r0, rs⟩
          · exact absurd hcase hrowsne
          · exact getLastD_mem_of_cons r0 rs default
        have hlast_in_u : (fetch_unprocessed_batch s.changes b lastId).getLastD default
            ∈ s.changes.filter (unprocAfter lastId) := by
          rw [hfetch] at hlastmem ⊢
          exact List.take_subset _ _ hlastmem
        have hlastId_lt : lastId <
            ((fetch_unprocessed_batch s.changes b lastId).getLastD default).id := by
          have hmem := List.of_mem_filter hlast_in_u
          unfold unprocAfter at hmem
          simp only [Bool.and_eq_true, decide_eq_true_eq] at hmem
          exact hmem.2
        have hrows_le : ∀ row ∈ fetch_unprocessed_batch s.changes b lastId,
            row.id ≤ ((fetch_unprocessed_batch s.changes b lastId).getLastD default).id :=
          pairwise_le_getLastD default _ hrowspair
        -- the remaining rows after this batch
        have hchain :
            ((process_batch w s (fetch_unprocessed_batch s.changes b lastId)).1).changes.filter
                (unprocAfter ((fetch_unprocessed_batch s.changes b lastId).getLastD default).id)
              = (s.changes.filter (unprocAfter lastId)).drop b := by
          rw [batch_changes_filter_high w _ _ s hrows_le]
          rw [filter_unprocAfter_subsume s.changes lastId _ (Nat.le_of_lt hlastId_lt)]
          have hpivot := sorted_filter_getLastD_take_drop
            (s.changes.filter (unprocAfter lastId)) b upair hb hble
          rw [← hfetch] at hpivot
          exact hpivot
        have hspair : ((process_batch w s (fetch_unprocessed_batch s.changes b lastId)).1).changes.Pairwise
            (fun a c => a.id < c.id) := batch_changes_pairwise w _ s hs
        have hfuel' :
            (((process_batch w s (fetch_unprocessed_batch s.changes b lastId)).1).changes.filter
                (unprocAfter ((fetch_unprocessed_batch s.changes b lastId).getLastD default).id)).length
              < f := by
          rw [hchain, List.length_drop]
          omega
        have hrec := ih (process_batch w s (fetch_unprocessed_batch s.changes b lastId)).1
          ((fetch_unprocessed_batch s.changes b lastId).getLastD default).id hspair hfuel'
        rw [if_neg hemp, if_neg hlt]
        show fetch_unprocessed_batch s.changes b lastId ++
            (fetchLoop w b f
              (process_batch w s (fetch_unprocessed_batch s.changes b lastId)).1
              ((fetch_unprocessed_batch s.changes b lastId).getLastD default).id).2.1
          = s.changes.filter (unprocAfter lastId)
        rw [hrec, hchain]
        conv_lhs => rw [hfetch]
        exact List.take_append_drop b (s.changes.filter (unprocAfter lastId))

end Dispatcher

namespace Dispatcher

lemma deliveredIds_append (l1 l2 : List DbEvent) :
    deliveredIds (l1 ++ l2) = deliveredIds l1 ++ deliveredIds l2 := by
  simp [deliveredIds]

lemma deliveredIds_rowStep (w : World) (row : ChangeRow) :
    deliveredIds (rowStepEvents w row)
      = if (get_service_for_change w.routes row.change).isSome
        then [row.id] else [] := by
  rcases hroute : get_service_for_change w.routes row.change with _ | rt
  · simp [rowStepEvents_noRoute w row hroute, deliveredIds]
  · rcases hhttp : w.http rt.endpoint (payloadOf row) with ⟨code, body⟩ | _
    · by_cases hc : code = 200
      · subst hc
        simp [rowStepEvents_success w row rt body hroute hhttp, deliveredIds]
      · simp [rowStepEvents_fail w row rt code body hroute hhttp hc, deliveredIds]
    · simp [rowStepEvents_transport w row rt hroute hhttp, deliveredIds]

lemma deliveredIds_batch (w : World) :
    ∀ (rows : List ChangeRow) (s : DbState),
      deliveredIds (process_batch w s rows).2
        = (rows.filter
            (fun r => (get_service_for_change w.routes r.change).isSome)).map (·.id) := by
  intro rows
  induction rows with
  | nil => intro s; rfl
  | cons row rest ih =>
    intro s
    show deliveredIds (rowStepEvents w row
      ++ (process_batch w (applyEvents s (rowStepEvents w row)) rest).2) = _
    rw [deliveredIds_append, deliveredIds_rowStep, ih, List.filter_cons]
    cases h : (get_service_for_change w.routes row.change).isSome <;> simp [h]

lemma deliveredIds_fetchLoop (w : World) (b : Nat) :
    ∀ (fuel : Nat) (s : DbState) (lastId : Nat),
      deliveredIds (fetchLoop w b fuel s lastId).2.2
        = ((fetchLoop w b fuel s lastId).2.1.filter
            (fun r => (get_service_for_change w.routes r.change).isSome)).map (·.id) := by
  intro fuel
  induction fuel with
  | zero => intro s lastId; rfl
  | succ f ih =>
    intro s lastId
    simp only [fetchLoop]
    by_cases hemp : (fetch_unprocessed_batch s.changes b lastId).isEmpty
    · rw [if_pos hemp]; rfl
    · by_cases hlt : (fetch_unprocessed_batch s.changes b lastId).length < b
      · rw [if_neg hemp, if_pos hlt]
        exact deliveredIds_batch w _ s
      · rw [if_neg hemp, if_neg hlt]
        show deliveredIds ((process_batch w s (fetch_unprocessed_batch s.changes b lastId)).2
            ++ (fetchLoop w b f _ _).2.2) = _
        rw [deliveredIds_append, deliveredIds_batch w _ s, ih, List.filter_append,
          List.map_append]

end Dispatcher

namespace Dispatcher

/-- C5 counterexample: in the example world the resume pass delivers rows 1
and 2 (row 1 fails with a 500, row 2 succeeds), and the next notification
pass re-delivers row 1 — the delivered-id sequence of the process is
[1, 2, 1], which is not non-decreasing, so delivery order within a single
dispatcher process is broken as soon as a failed row is retried after a later
row succeeded. -/
theorem c5_counterexample :
    (dispatcherRun Examples.exWorld 10 Examples.exState 5 1).2 = [1, 2, 1] ∧
    ¬ ((dispatcherRun Examples.exWorld 10 Examples.exState 5 1).2.Pairwise (· ≤ ·)) := by
  decide

/-- C5 (amended): within a single fetch-and-process pass the dispatcher
attempts every pre-existing unprocessed row exactly once in ascending id
order (the resume trace is the unprocessed rows in table order), the ids it
delivers to effectors are strictly increasing, and in main the LISTEN
statement is issued only after the whole resume pass: it is the last startup
event and everything before it is a dispatch.  (Across passes the order is
not non-decreasing: a failed row is re-delivered after later rows, see the
counterexample.) -/
theorem c5_pass_ascending_and_resume_precedes_listen
    (w : World) (b fuel : Nat) (s : DbState)
    (hs : s.changes.Pairwise (fun a c => a.id < c.id))
    (hpos : ∀ r ∈ s.changes, 0 < r.id)
    (hb : 0 < b) (hfuel : s.changes.length < fuel) :
    (resume_unprocessed w b s fuel).2.1
        = s.changes.filter (fun r => !r.processed) ∧
    ((resume_unprocessed w b s fuel).2.1.map (·.id)).Pairwise (· < ·) ∧
    (deliveredIds (resume_unprocessed w b s fuel).2.2).Pairwise (· < ·) ∧
    (mainStartup w b s fuel).getLast? = some .listen ∧
    ∀ e ∈ (mainStartup w b s fuel).dropLast, ∃ i, e = StartupEvent.dispatched i := by
  have hfeq : s.changes.filter (unprocAfter 0)
      = s.changes.filter (fun r => !r.processed) := by
    apply List.filter_congr
    intro r hr
    have h0 : (0 : Nat) < r.id := hpos r hr
    simp [unprocAfter, h0]
  have hstartup : mainStartup w b s fuel
      = ((deliveredIds (resume_unprocessed w b s fuel).2.2).map .dispatched)
          ++ [.listen] := rfl
  have hlast : (mainStartup w b s fuel).getLast? = some .listen := by
    rw [hstartup]
    exact List.getLast?_concat _
  have hdrop : ∀ e ∈ (mainStartup w b s fuel).dropLast,
      ∃ i, e = StartupEvent.dispatched i := by
    rw [hstartup, List.dropLast_concat]
    intro e he
    obtain ⟨i, _, hi⟩ := List.mem_map.mp he
    exact ⟨i, hi.symm⟩
  unfold resume_unprocessed
  by_cases hc : count_unprocessed s.changes = 0
  · have hnil : s.changes.filter (fun r => !r.processed) = [] :=
      List.length_eq_zero.mp hc
    rw [if_pos hc]
    exact ⟨hnil.symm, by simp, by simp [deliveredIds], hlast, hdrop⟩
  · have hflen : (s.changes.filter (unprocAfter 0)).length < fuel :=
      Nat.lt_of_le_of_lt (List.length_filter_le _ _) hfuel
    have htr := fetchLoop_trace w b hb fuel s 0 hs hflen
    have htracepair : ((fetchLoop w b fuel s 0).2.1).Pairwise
        (fun a c => a.id < c.id) := by
      rw [htr]
      exact hs.sublist (List.filter_sublist _)
    rw [if_neg hc]
    refine ⟨htr.trans hfeq, ?_, ?_, hlast, hdrop⟩
    · exact List.pairwise_map.mpr htracepair
    · rw [deliveredIds_fetchLoop]
      exact List.pairwise_map.mpr
        ((htracepair.sublist (List.filter_sublist _)))

/-- Witness for C5 (amended) at the example state: resume attempts rows 1 and
2 in order and LISTEN is the final startup event. -/
theorem c5_pass_ascending_witness :
    (resume_unprocessed Examples.exWorld 10 Examples.exState 5).2.1
        = Examples.exState.changes.filter (fun r => !r.processed) ∧
    (mainStartup Examples.exWorld 10 Examples.exState 5).getLast?
        = some .listen := by
  have h := c5_pass_ascending_and_resume_precedes_listen Examples.exWorld 10 5
    Examples.exState (by decide) (by decide) (by decide) (by decide)
  exact ⟨h.1, h.2.2.2.1⟩

end Dispatcher
